import Mathlib

/-!
Verification of the booking portal core logic: a shallow embedding of the client-side booking logic of the school equipment
booking portal (source: `src/App.tsx`, types from `src/unnamed/part_000`):
the conflict checker inside `handleSubmit`, the equipment sanitizer
`sanitizeBooking`, the optimistic-mutation operations of the bookings
provider (`createBooking`, `updateBookingStatus`, `deleteBooking`), and the
schedule projection `bookingsForDateMap` with its Asia/Bangkok date
normalization.
-/

set_option autoImplicit false

namespace BookingPortal

/-- The `BookingStatus` union — the five lifecycle statuses of a booking
(TS string union `'Booked' | 'In Use' | 'Awaiting Return' | 'Returned' | 'Cancelled'`). -/
inductive BookingStatus where
  | booked
  | inUse
  | awaitingReturn
  | returned
  | cancelled
deriving DecidableEq, Repr

/-- The `BookingType` union — the TS union `'จอง' | 'ยืม'`: `book` stands for the
reservation kind `'จอง'` and `borrow` for the immediate-use kind `'ยืม'`. -/
inductive BookingType where
  | book
  | borrow
deriving DecidableEq, Repr

/-- The `Booking` record of `types.ts`, after equipment sanitization
(`equipment : string[]`). `bookingDate` and `createdAt` stay strings, as
in the source. -/
structure Booking where
  id : Nat
  teacherName : String
  program : String
  classroom : String
  period : Nat
  bookingDate : String
  learningUnitNumber : String
  learningUnitName : String
  lessonPlanName : String
  equipment : List String
  type : BookingType
  status : BookingStatus
  createdAt : String
deriving DecidableEq, Repr

/-- Shape of the raw `equipment` value of a booking as it may arrive from
the API: a proper array, a single (possibly comma-joined) string, or any
other malformed value. -/
inductive RawEquipment where
  | arr (l : List String)
  | str (s : String)
  | malformed
deriving DecidableEq, Repr

/-- A booking as returned by the API, before `sanitizeBooking`: identical
to `Booking` except that `equipment` may have any of the raw shapes. -/
structure RawBooking where
  id : Nat
  teacherName : String
  program : String
  classroom : String
  period : Nat
  bookingDate : String
  learningUnitNumber : String
  learningUnitName : String
  lessonPlanName : String
  equipment : RawEquipment
  type : BookingType
  status : BookingStatus
  createdAt : String
deriving DecidableEq, Repr

/-- JS `String.prototype.trim`: strip leading and trailing whitespace. -/
def jsTrim (s : String) : String :=
  ⟨((s.data.dropWhile Char.isWhitespace).reverse.dropWhile
      Char.isWhitespace).reverse⟩

/-- JS `String.prototype.split` with a single-character separator, on the
character list: splitting at every occurrence, keeping empty pieces. -/
def splitChar (c : Char) : List Char → List (List Char)
  | [] => [[]]
  | x :: xs =>
    match splitChar c xs with
    | [] => [[]]
    | h :: t => if x = c then [] :: h :: t else (x :: h) :: t

/-- JS `String.prototype.split` with a single-character separator. -/
def jsSplit (s : String) (c : Char) : List String :=
  (splitChar c s.data).map String.mk

/-- The equipment branch of `sanitizeBooking` (App.tsx:108-117): an array
passes through; a string is split on commas, each piece trimmed, empty
pieces filtered out; anything else becomes the empty list. -/
def sanitizeEquipment : RawEquipment → List String
  | .arr l => l
  | .str s => ((jsSplit s ',').map jsTrim).filter (fun e => 0 < e.length)
  | .malformed => []

/-- The function `sanitizeBooking` (App.tsx:108-117): returns the booking with its
`equipment` field replaced by the sanitized array, all other fields kept. -/
def sanitizeBooking (b : RawBooking) : Booking :=
  { id := b.id, teacherName := b.teacherName, program := b.program,
    classroom := b.classroom, period := b.period, bookingDate := b.bookingDate,
    learningUnitNumber := b.learningUnitNumber,
    learningUnitName := b.learningUnitName, lessonPlanName := b.lessonPlanName,
    equipment := sanitizeEquipment b.equipment, type := b.type,
    status := b.status, createdAt := b.createdAt }

/-- The list `activeStatuses` as declared both in `handleSubmit` (App.tsx:814) and in
`bookingsForDateMap` (App.tsx:1106). -/
def activeStatuses : List BookingStatus :=
  [.booked, .inUse, .awaitingReturn]

/-- The test `activeStatuses.includes(b.status)`. -/
def isActive (b : Booking) : Bool :=
  activeStatuses.contains b.status

/-- The data `handleSubmit` passes to `createBooking`: every `Booking` field
minus `id`, `status` and `createdAt` (TS `Omit<Booking, 'id' | 'status' | 'createdAt'>`).
Also serves as the proposed booking fed to the conflict checks, with
`equipment` playing the role of `finalEquipmentList`. -/
structure BookingData where
  type : BookingType
  teacherName : String
  program : String
  classroom : String
  period : Nat
  bookingDate : String
  learningUnitNumber : String
  learningUnitName : String
  lessonPlanName : String
  equipment : List String
deriving DecidableEq, Repr

/-- Outcome of the conflict-checking section of `handleSubmit`
(App.tsx:813-852): reject with the classroom-conflict alert, reject with the
equipment-conflict alert, or proceed to issue `createBooking` with the
assembled payload. -/
inductive SubmitResult where
  | classroomConflict
  | equipmentConflict
  | create (payload : BookingData)
deriving DecidableEq, Repr

/-- The list `bookingsAtSameTime` (App.tsx:815-820): the cached bookings whose
`bookingDate.substring(0, 10)` equals the proposed date string, whose period
equals the proposed period, and whose status is active. -/
def bookingsAtSameTime (bookings : List Booking) (bookingDate : String)
    (period : Nat) : List Booking :=
  bookings.filter (fun b =>
    b.bookingDate.take 10 == bookingDate && b.period == period && isActive b)

/-- The list `allBookedEquipmentAtTime` (App.tsx:835): the trimmed equipment items of
every booking at the given date and period, flattened. -/
def allBookedEquipmentAtTime (bookings : List Booking) (bookingDate : String)
    (period : Nat) : List String :=
  (bookingsAtSameTime bookings bookingDate period).flatMap
    (fun b => b.equipment.map jsTrim)

/-- The conflict-check-then-create section of `handleSubmit`
(App.tsx:813-852). Check 1: some booking at the same time has the same
classroom (raw string equality) — classroom conflict. Check 2: some
proposed equipment item, trimmed, occurs among the trimmed equipment items
of the bookings at the same time — equipment conflict. Otherwise the
creation request is issued with the proposal. -/
def checkSubmit (bookings : List Booking) (p : BookingData) : SubmitResult :=
  if (bookingsAtSameTime bookings p.bookingDate p.period).any
      (fun b => b.classroom == p.classroom) then
    .classroomConflict
  else if p.equipment.any (fun reqEq =>
      (allBookedEquipmentAtTime bookings p.bookingDate p.period).contains (jsTrim reqEq)) then
    .equipmentConflict
  else
    .create p

/-! ## Dates and the Asia/Bangkok normalization

`bookingsForDateMap` (App.tsx:1104-1118) parses each stored `bookingDate`
with `new Date(...)` and formats the resulting instant with
`Intl.DateTimeFormat('en-CA', { timeZone: 'Asia/Bangkok' })`, which yields
the `YYYY-MM-DD` calendar date of the instant shifted by the fixed +07:00
Bangkok offset (Thailand observes no daylight saving). We embed the two
ISO forms the backend produces — a date-only string (interpreted by JS as
UTC midnight) and a full timestamp with `Z` or a numeric offset — and the
proleptic-Gregorian civil-date arithmetic needed to shift and reformat. -/

/-- Decimal value of two digit characters, if both are digits. -/
def twoDigits (a b : Char) : Option Nat :=
  if a.isDigit && b.isDigit then some ((a.toNat - 48) * 10 + (b.toNat - 48))
  else none

/-- Decimal value of four digit characters, if all are digits. -/
def fourDigits (a b c d : Char) : Option Nat :=
  match twoDigits a b, twoDigits c d with
  | some hi, some lo => some (hi * 100 + lo)
  | _, _ => none

/-- Days from 1970-01-01 to the civil date `y-m-d` (proleptic Gregorian,
years ≥ 1, Hinnant's `days_from_civil`). -/
def daysFromCivil (y m d : Nat) : Int :=
  let yAdj := if m ≤ 2 then y - 1 else y
  let era := yAdj / 400
  let yoe := yAdj % 400
  let doy := (153 * (if 2 < m then m - 3 else m + 9) + 2) / 5 + d - 1
  let doe := yoe * 365 + yoe / 4 - yoe / 100 + doy
  (↑(era * 146097 + doe) : Int) - 719468

/-- Civil date `(y, m, d)` of the day `z` days after 1970-01-01
(Hinnant's `civil_from_days`). -/
def civilFromDays (z : Int) : Int × Nat × Nat :=
  let z2 := z + 719468
  let era := Int.fdiv z2 146097
  let doe := (z2 - era * 146097).toNat
  let yoe := (doe - doe / 1460 + doe / 36524 - doe / 146096) / 365
  let y := era * 400 + yoe
  let doy := doe - (365 * yoe + yoe / 4 - yoe / 100)
  let mp := (5 * doy + 2) / 153
  let d := doy - (153 * mp + 2) / 5 + 1
  let m := if mp < 10 then mp + 3 else mp - 9
  (if m ≤ 2 then y + 1 else y, m, d)

/-- Trailing timezone designator of an ISO timestamp: `Z`, `+HH:MM` or
`-HH:MM`, returned as an offset in seconds. -/
def parseOffset : List Char → Option Int
  | ['Z'] => some 0
  | ['+', a, b, ':', c, d] =>
    match twoDigits a b, twoDigits c d with
    | some h, some m => if h ≤ 23 && m ≤ 59 then some (↑(h * 3600 + m * 60)) else none
    | _, _ => none
  | ['-', a, b, ':', c, d] =>
    match twoDigits a b, twoDigits c d with
    | some h, some m => if h ≤ 23 && m ≤ 59 then some (-(↑(h * 3600 + m * 60) : Int)) else none
    | _, _ => none
  | _ => none

/-- Optional fractional-second part followed by the timezone designator.
The fraction cannot move an instant across a day boundary, so it is
discarded for calendar-date purposes. -/
def parseFractionOffset (cs : List Char) : Option Int :=
  match cs with
  | '.' :: rest =>
    let ds := rest.takeWhile Char.isDigit
    if ds.isEmpty then none else parseOffset (rest.dropWhile Char.isDigit)
  | _ => parseOffset cs

/-- The JS parse `new Date(s)` on the string shapes the backend produces, as epoch
seconds: `YYYY-MM-DD` is UTC midnight of that date; a full
`YYYY-MM-DDTHH:MM:SS[.fff](Z|±HH:MM)` timestamp is the designated instant.
Any other shape is rejected (`none`). -/
def parseInstant (s : String) : Option Int :=
  match s.data with
  | [y1, y2, y3, y4, '-', m1, m2, '-', d1, d2] =>
    match fourDigits y1 y2 y3 y4, twoDigits m1 m2, twoDigits d1 d2 with
    | some y, some m, some d =>
      if 1 ≤ m && m ≤ 12 && 1 ≤ d && d ≤ 31 then
        some (daysFromCivil y m d * 86400)
      else none
    | _, _, _ => none
  | y1 :: y2 :: y3 :: y4 :: '-' :: m1 :: m2 :: '-' :: d1 :: d2 :: 'T' ::
      h1 :: h2 :: ':' :: mi1 :: mi2 :: ':' :: s1 :: s2 :: rest =>
    match fourDigits y1 y2 y3 y4, twoDigits m1 m2, twoDigits d1 d2,
        twoDigits h1 h2, twoDigits mi1 mi2, twoDigits s1 s2 with
    | some y, some m, some d, some h, some mi, some sec =>
      if 1 ≤ m && m ≤ 12 && 1 ≤ d && d ≤ 31 && h ≤ 23 && mi ≤ 59 && sec ≤ 59 then
        match parseFractionOffset rest with
        | some off => some (daysFromCivil y m d * 86400 + ↑(h * 3600 + mi * 60 + sec) - off)
        | none => none
      else none
    | _, _, _, _, _, _ => none
  | _ => none

/-- Left-pad a number to two digits. -/
def pad2 (n : Nat) : String :=
  if n < 10 then "0" ++ toString n else toString n

/-- Left-pad a number to four digits. -/
def pad4 (n : Nat) : String :=
  if n < 10 then "000" ++ toString n
  else if n < 100 then "00" ++ toString n
  else if n < 1000 then "0" ++ toString n
  else toString n

/-- The Bangkok formatting step of App.tsx:1111 on
an instant given as epoch seconds: the `YYYY-MM-DD` civil date of the
instant shifted by the fixed +07:00 offset. -/
def bangkokDateString (t : Int) : String :=
  let (y, m, d) := civilFromDays (Int.fdiv (t + 25200) 86400)
  pad4 y.toNat ++ "-" ++ pad2 m ++ "-" ++ pad2 d

/-- The Asia/Bangkok calendar date of a stored `bookingDate` string, when it
parses (App.tsx:1111, `bookingDateInBangkok`). -/
def bangkokOf (s : String) : Option String :=
  (parseInstant s).map bangkokDateString

/-- The first ten characters of the stored `bookingDate` — the date part
the conflict check compares against the proposed date
(App.tsx:816, `b.bookingDate.substring(0, 10)`). -/
def conflictDatePart (b : Booking) : String :=
  b.bookingDate.take 10

/-! ## The schedule projection `bookingsForDateMap` -/

/-- The grid key string: classroom, a dash, then the period (App.tsx:1115, a template literal). -/
def gridKey (b : Booking) : String :=
  b.classroom ++ "-" ++ toString b.period

/-- The filter of `bookingsForDateMap` (App.tsx:1107-1113): active bookings
whose stored date falls on `selectedDate` in the Asia/Bangkok timezone. -/
def scheduleCandidates (bookings : List Booking) (selectedDate : String) :
    List Booking :=
  bookings.filter (fun b =>
    (match bangkokOf b.bookingDate with
     | some ds => ds == selectedDate
     | none => false) && isActive b)

/-- JS `Map.prototype.set` on an association list: overwrite in place if the
key is present, append otherwise. -/
def mapSet (m : List (String × Booking)) (k : String) (v : Booking) :
    List (String × Booking) :=
  if m.any (fun p => p.1 == k) then
    m.map (fun p => if p.1 == k then (k, v) else p)
  else
    m ++ [(k, v)]

/-- The map `bookingsForDateMap` (App.tsx:1104-1118): the filtered bookings are
inserted into a map keyed by the classroom-period grid key, later entries
overwriting earlier ones with the same key. -/
def bookingsForDateMap (bookings : List Booking) (selectedDate : String) :
    List (String × Booking) :=
  (scheduleCandidates bookings selectedDate).foldl
    (fun m b => mapSet m (gridKey b) b) []

/-! ## The bookings store: optimistic mutations with rollback

`createBooking`, `updateBookingStatus` and `deleteBooking`
(App.tsx:264-320) each apply an optimistic cache mutation synchronously,
then await the gateway call. The embedding makes the suspension explicit:
each operation is a function of the pre-call cache, the call's inputs, and
the gateway outcome, returning the cache visible during the pending window,
the final cache, and the error re-raised to the caller (if any). The
silent `fetchBookings(true)` reconciliation that follows a successful
status update or delete wholesale-replaces the cache with the fetched
snapshot (or leaves it unchanged if the silent fetch itself fails), so its
outcome enters as a parameter. -/

/-- An error thrown by `fetchFromScript` (api.ts): either a non-OK
transport status or a non-success response envelope; only the message is
observable to the store. -/
structure GatewayError where
  message : String
deriving DecidableEq, Repr

/-- Result of one optimistic mutation: the cache while the request is
pending, the final cache after the outcome is processed, and the error
re-raised to the caller, if any. -/
structure MutationTrace where
  pending : List Booking
  final : List Booking
  raised : Option GatewayError
deriving DecidableEq, Repr

/-- The derived initial status of a created booking
(App.tsx:266, `bookingData.type === 'ยืม' ? 'In Use' : 'Booked'`). -/
def initialStatus : BookingType → BookingStatus
  | .borrow => .inUse
  | .book => .booked

/-- The record `optimisticBooking` (App.tsx:268-273): the placeholder record, with
`id = Date.now()` (the clock value `now`), the derived status,
`createdAt = new Date().toISOString()` (the string `createdAtNow`), and the
submitted fields. -/
def optimisticBooking (d : BookingData) (now : Nat) (createdAtNow : String) :
    Booking :=
  { id := now, status := initialStatus d.type, createdAt := createdAtNow,
    teacherName := d.teacherName, program := d.program,
    classroom := d.classroom, period := d.period,
    bookingDate := d.bookingDate,
    learningUnitNumber := d.learningUnitNumber,
    learningUnitName := d.learningUnitName,
    lessonPlanName := d.lessonPlanName, equipment := d.equipment,
    type := d.type }

/-- The operation `createBooking` (App.tsx:264-294). The placeholder is prepended to the
cache before the request; on success every record whose id equals the
placeholder id is replaced by the sanitized server response; on failure
every record whose id equals the placeholder id is filtered out and the
error is re-raised. -/
def createBookingRun (cache : List Booking) (d : BookingData) (now : Nat)
    (createdAtNow : String) (outcome : Except GatewayError RawBooking) :
    MutationTrace :=
  let tempId := now
  let pending := optimisticBooking d now createdAtNow :: cache
  match outcome with
  | .ok finalBooking =>
    { pending := pending,
      final := pending.map (fun b =>
        if b.id == tempId then sanitizeBooking finalBooking else b),
      raised := none }
  | .error e =>
    { pending := pending,
      final := pending.filter (fun b => !(b.id == tempId)),
      raised := some e }

/-- The operation `updateBookingStatus` (App.tsx:296-308). The snapshot is the pre-call
cache; the optimistic step rewrites the target record's status in place; on
success the silent refresh outcome `refreshed` replaces the cache wholesale
(`none` meaning the silent fetch failed and left the optimistic state); on
failure the snapshot is restored and the error re-raised. -/
def updateBookingStatusRun (cache : List Booking) (id : Nat)
    (status : BookingStatus) (outcome : Except GatewayError Unit)
    (refreshed : Option (List Booking)) : MutationTrace :=
  let originalBookings := cache
  let pending := cache.map (fun b =>
    if b.id == id then { b with status := status } else b)
  match outcome with
  | .ok _ =>
    { pending := pending, final := refreshed.getD pending, raised := none }
  | .error e =>
    { pending := pending, final := originalBookings, raised := some e }

/-- The operation `deleteBooking` (App.tsx:310-320). The snapshot is the pre-call cache;
the optimistic step removes the target record; on success the silent
refresh outcome replaces the cache; on failure the snapshot is restored and
the error re-raised. -/
def deleteBookingRun (cache : List Booking) (id : Nat)
    (outcome : Except GatewayError Unit) (refreshed : Option (List Booking)) :
    MutationTrace :=
  let originalBookings := cache
  let pending := cache.filter (fun b => !(b.id == id))
  match outcome with
  | .ok _ =>
    { pending := pending, final := refreshed.getD pending, raised := none }
  | .error e =>
    { pending := pending, final := originalBookings, raised := some e }

/-! ## Lemmas about the conflict checker -/

theorem contains_iff_mem {l : List String} {x : String} :
    l.contains x = true ↔ x ∈ l := by
  simp [List.contains, List.elem_iff]

theorem mem_bookingsAtSameTime {bookings : List Booking} {date : String}
    {period : Nat} {b : Booking} :
    b ∈ bookingsAtSameTime bookings date period ↔
      b ∈ bookings ∧ b.bookingDate.take 10 = date ∧ b.period = period ∧
        isActive b = true := by
  simp [bookingsAtSameTime, List.mem_filter, and_assoc]

theorem checkSubmit_eq_classroomConflict {bookings : List Booking}
    {p : BookingData} {b : Booking}
    (hmem : b ∈ bookingsAtSameTime bookings p.bookingDate p.period)
    (hcls : b.classroom = p.classroom) :
    checkSubmit bookings p = .classroomConflict := by
  have h : (bookingsAtSameTime bookings p.bookingDate p.period).any
      (fun b => b.classroom == p.classroom) = true :=
    List.any_eq_true.mpr ⟨b, hmem, by simp [hcls]⟩
  simp only [checkSubmit, h]
  rfl

theorem any_classroom_eq_false {bookings : List Booking} {p : BookingData}
    (h : ∀ b ∈ bookingsAtSameTime bookings p.bookingDate p.period,
      b.classroom ≠ p.classroom) :
    (bookingsAtSameTime bookings p.bookingDate p.period).any
      (fun b => b.classroom == p.classroom) = false := by
  rw [List.any_eq_false]
  intro b hb
  simpa using h b hb

theorem checkSubmit_eq_equipmentConflict {bookings : List Booking}
    {p : BookingData} {r e : String} {b : Booking}
    (hnc : ∀ b' ∈ bookingsAtSameTime bookings p.bookingDate p.period,
      b'.classroom ≠ p.classroom)
    (hr : r ∈ p.equipment)
    (hb : b ∈ bookingsAtSameTime bookings p.bookingDate p.period)
    (he : e ∈ b.equipment) (heq : jsTrim e = jsTrim r) :
    checkSubmit bookings p = .equipmentConflict := by
  have h1 := any_classroom_eq_false hnc
  have hmem : jsTrim r ∈ allBookedEquipmentAtTime bookings p.bookingDate p.period := by
    rw [← heq]
    exact List.mem_flatMap.mpr ⟨b, hb, List.mem_map.mpr ⟨e, he, rfl⟩⟩
  have h2 : p.equipment.any (fun reqEq =>
      (allBookedEquipmentAtTime bookings p.bookingDate p.period).contains
        (jsTrim reqEq)) = true :=
    List.any_eq_true.mpr ⟨r, hr, contains_iff_mem.mpr hmem⟩
  simp only [checkSubmit, h1, h2]
  rfl

theorem checkSubmit_eq_create {bookings : List Booking} {p : BookingData}
    (hnc : ∀ b ∈ bookingsAtSameTime bookings p.bookingDate p.period,
      b.classroom ≠ p.classroom)
    (hne : ∀ r ∈ p.equipment,
      ∀ b ∈ bookingsAtSameTime bookings p.bookingDate p.period,
      ∀ e ∈ b.equipment, jsTrim e ≠ jsTrim r) :
    checkSubmit bookings p = .create p := by
  have h1 := any_classroom_eq_false hnc
  have h2 : p.equipment.any (fun reqEq =>
      (allBookedEquipmentAtTime bookings p.bookingDate p.period).contains
        (jsTrim reqEq)) = false := by
    rw [List.any_eq_false]
    intro r hr hcon
    obtain ⟨b, hb, e, he, heq⟩ := by
      simpa [allBookedEquipmentAtTime, List.mem_flatMap, List.mem_map]
        using contains_iff_mem.mp hcon
    exact hne r hr b hb e he heq
  simp only [checkSubmit, h1, h2]
  rfl

/-! ## Lemmas about the schedule projection -/

theorem mem_mapSet {m : List (String × Booking)} {k : String} {v : Booking}
    {q : String × Booking} (h : q ∈ mapSet m k v) : q ∈ m ∨ q = (k, v) := by
  unfold mapSet at h
  by_cases hc : m.any (fun p => p.1 == k) = true
  · rw [if_pos hc] at h
    obtain ⟨p, hp, hq⟩ := List.mem_map.mp h
    by_cases hk : (p.1 == k) = true
    · right
      rw [if_pos hk] at hq
      exact hq.symm
    · left
      rw [if_neg hk] at hq
      exact hq ▸ hp
  · rw [if_neg hc] at h
    rcases List.mem_append.mp h with h' | h'
    · exact Or.inl h'
    · exact Or.inr (List.mem_singleton.mp h')

theorem keys_mapSet (m : List (String × Booking)) (k : String) (v : Booking) :
    (mapSet m k v).map Prod.fst = m.map Prod.fst ∨
      ((mapSet m k v).map Prod.fst = m.map Prod.fst ++ [k] ∧
        k ∉ m.map Prod.fst) := by
  unfold mapSet
  by_cases hc : m.any (fun p => p.1 == k) = true
  · left
    rw [if_pos hc, List.map_map]
    refine List.map_congr_left (fun p _ => ?_)
    by_cases hk : (p.1 == k) = true
    · simp [Function.comp, hk, (beq_iff_eq.mp hk).symm]
    · simp [Function.comp, hk]
  · right
    rw [if_neg hc]
    constructor
    · simp
    · intro hmem
      obtain ⟨p, hp, hpk⟩ := List.mem_map.mp hmem
      exact hc (List.any_eq_true.mpr ⟨p, hp, by simp [hpk]⟩)

theorem nodup_keys_mapSet {m : List (String × Booking)} {k : String}
    {v : Booking} (h : (m.map Prod.fst).Nodup) :
    ((mapSet m k v).map Prod.fst).Nodup := by
  rcases keys_mapSet m k v with hk | ⟨hk, hnot⟩
  · rw [hk]; exact h
  · rw [hk, List.nodup_append]
    exact ⟨h, List.nodup_singleton k, by
      intro a ha hb
      rw [List.mem_singleton] at hb
      exact hnot (hb ▸ ha)⟩

theorem mem_foldl_mapSet {l : List Booking} {acc : List (String × Booking)}
    {q : String × Booking}
    (h : q ∈ l.foldl (fun m b => mapSet m (gridKey b) b) acc) :
    q ∈ acc ∨ ∃ b ∈ l, q = (gridKey b, b) := by
  induction l generalizing acc with
  | nil => exact Or.inl h
  | cons b l ih =>
    rcases ih h with h' | ⟨b', hb', hq⟩
    · rcases mem_mapSet h' with h'' | h''
      · exact Or.inl h''
      · exact Or.inr ⟨b, List.mem_cons_self b l, h''⟩
    · exact Or.inr ⟨b', List.mem_cons_of_mem b hb', hq⟩

theorem nodup_keys_foldl_mapSet {l : List Booking}
    {acc : List (String × Booking)} (h : (acc.map Prod.fst).Nodup) :
    (((l.foldl (fun m b => mapSet m (gridKey b) b) acc)).map Prod.fst).Nodup := by
  induction l generalizing acc with
  | nil => exact h
  | cons b l ih => exact ih (nodup_keys_mapSet h)

theorem mem_scheduleCandidates {bookings : List Booking} {d : String}
    {b : Booking} :
    b ∈ scheduleCandidates bookings d ↔
      b ∈ bookings ∧ bangkokOf b.bookingDate = some d ∧ isActive b = true := by
  constructor
  · intro h
    obtain ⟨hmem, hcond⟩ := List.mem_filter.mp h
    rw [Bool.and_eq_true] at hcond
    obtain ⟨hdate, hact⟩ := hcond
    refine ⟨hmem, ?_, hact⟩
    cases hbk : bangkokOf b.bookingDate with
    | none => rw [hbk] at hdate; exact absurd hdate (by simp)
    | some ds =>
      rw [hbk] at hdate
      have hds : (ds == d) = true := hdate
      exact congrArg some (beq_iff_eq.mp hds)
  · intro ⟨hmem, hdate, hact⟩
    refine List.mem_filter.mpr ⟨hmem, ?_⟩
    rw [Bool.and_eq_true, hdate]
    exact ⟨by simp, hact⟩

theorem mem_bookingsForDateMap {bookings : List Booking} {d k : String}
    {b : Booking} (h : (k, b) ∈ bookingsForDateMap bookings d) :
    b ∈ bookings ∧ isActive b = true ∧ bangkokOf b.bookingDate = some d ∧
      k = gridKey b := by
  rcases mem_foldl_mapSet h with h' | ⟨b', hb', hq⟩
  · exact absurd h' (List.not_mem_nil _)
  · have hk : k = gridKey b' := congrArg Prod.fst hq
    have hb : b = b' := congrArg Prod.snd hq
    subst hb
    obtain ⟨hmem, hdate, hact⟩ := mem_scheduleCandidates.mp hb'
    exact ⟨hmem, hact, hdate, hk⟩

theorem nodup_keys_bookingsForDateMap (bookings : List Booking) (d : String) :
    ((bookingsForDateMap bookings d).map Prod.fst).Nodup :=
  nodup_keys_foldl_mapSet List.nodup_nil

theorem bookingsForDateMap_unique {bookings : List Booking} {d k : String}
    {b1 b2 : Booking} (h1 : (k, b1) ∈ bookingsForDateMap bookings d)
    (h2 : (k, b2) ∈ bookingsForDateMap bookings d) : b1 = b2 := by
  have := List.inj_on_of_nodup_map (nodup_keys_bookingsForDateMap bookings d)
    h1 h2 rfl
  exact congrArg Prod.snd this

/-! ## Concrete sample data -/

/-- A baseline active booking used by the concrete instances below. -/
def baseBooking : Booking :=
  { id := 1, teacherName := "Teacher A", program := "Thai Programme",
    classroom := "P.1A TP", period := 3, bookingDate := "2024-07-22",
    learningUnitNumber := "1", learningUnitName := "Unit 1",
    lessonPlanName := "Plan 1", equipment := ["tv"], type := .book,
    status := .booked, createdAt := "2024-07-20T08:00:00.000Z" }

/-- A baseline proposal for the same date and period as `baseBooking`, a
different classroom and disjoint equipment. -/
def baseProposal : BookingData :=
  { type := .book, teacherName := "Teacher B", program := "Thai Programme",
    classroom := "P.2A TP", period := 3, bookingDate := "2024-07-22",
    learningUnitNumber := "2", learningUnitName := "Unit 2",
    lessonPlanName := "Plan 2", equipment := ["remote"] }

/-- A server response for a successful creation request. -/
def rawServer : RawBooking :=
  { id := 42, teacherName := "Teacher B", program := "Thai Programme",
    classroom := "P.2A TP", period := 3, bookingDate := "2024-07-22",
    learningUnitNumber := "2", learningUnitName := "Unit 2",
    lessonPlanName := "Plan 2", equipment := .arr ["remote"], type := .book,
    status := .booked, createdAt := "2024-07-21T09:00:00.000Z" }

/-- A booking whose stored date is a late-evening UTC timestamp, which falls
on the next calendar day in Asia/Bangkok. -/
def tzBooking : Booking :=
  { baseBooking with bookingDate := "2024-07-22T17:00:00.000Z" }

/-! ## Claims C1 and C2: the conflict checker -/

/-- Claim C1, counterexample: an active booking whose classroom differs
from the proposal's only by a trailing space, on the same date and period.
The classrooms are equal after trimming, so the claim as stated demands a
`ClassroomConflict` rejection, but the code compares classrooms by raw
string equality and does not reject with a classroom conflict. -/
theorem C1_counterexample :
    jsTrim ({ baseBooking with classroom := "P.1A TP " } : Booking).classroom =
      jsTrim ({ baseProposal with classroom := "P.1A TP" } : BookingData).classroom ∧
    ({ baseBooking with classroom := "P.1A TP " } : Booking).bookingDate.take 10 =
      ({ baseProposal with classroom := "P.1A TP" } : BookingData).bookingDate ∧
    ({ baseBooking with classroom := "P.1A TP " } : Booking).period =
      ({ baseProposal with classroom := "P.1A TP" } : BookingData).period ∧
    isActive { baseBooking with classroom := "P.1A TP " } = true ∧
    checkSubmit [{ baseBooking with classroom := "P.1A TP " }]
        { baseProposal with classroom := "P.1A TP" } ≠ .classroomConflict := by
  decide

/-- Claim C1 (amended): if some active booking matches the proposal's
calendar date (first ten characters of the stored date) and period and has
a classroom equal to the proposal's under raw string equality — without
trimming — the conflict check rejects with `ClassroomConflict` before any
creation request is issued. -/
theorem C1_classroom_conflict_amended (bookings : List Booking)
    (p : BookingData) (b : Booking) (hmem : b ∈ bookings)
    (hact : isActive b = true)
    (hdate : b.bookingDate.take 10 = p.bookingDate)
    (hper : b.period = p.period) (hcls : b.classroom = p.classroom) :
    checkSubmit bookings p = .classroomConflict :=
  checkSubmit_eq_classroomConflict
    (mem_bookingsAtSameTime.mpr ⟨hmem, hdate, hper, hact⟩) hcls

/-- Claim C1, witness: the amended theorem applied at a concrete cache and
proposal sharing date, period and (raw-equal) classroom. -/
theorem C1_witness :
    checkSubmit [baseBooking] { baseProposal with classroom := "P.1A TP" } =
      .classroomConflict :=
  C1_classroom_conflict_amended [baseBooking]
    { baseProposal with classroom := "P.1A TP" } baseBooking
    (by decide) (by decide) (by decide) (by decide) (by decide)

/-- Claim C2: for every cache and proposal, (1) if no booking at the same
date and period has the proposal's classroom and some such booking has an
equipment item trim-equal to a proposed item, the check rejects with
`EquipmentConflict`; (2) if additionally no equipment overlap exists, the
proposal is accepted (the creation request is issued); (3) a classroom
match always yields `ClassroomConflict` — the classroom check precedes the
equipment check. -/
theorem C2_equipment_conflict (bookings : List Booking) (p : BookingData) :
    ((∀ b ∈ bookingsAtSameTime bookings p.bookingDate p.period,
        b.classroom ≠ p.classroom) →
      ((∃ b ∈ bookingsAtSameTime bookings p.bookingDate p.period,
          ∃ e ∈ b.equipment, ∃ r ∈ p.equipment, jsTrim e = jsTrim r) →
        checkSubmit bookings p = .equipmentConflict) ∧
      ((∀ b ∈ bookingsAtSameTime bookings p.bookingDate p.period,
          ∀ e ∈ b.equipment, ∀ r ∈ p.equipment, jsTrim e ≠ jsTrim r) →
        checkSubmit bookings p = .create p)) ∧
    (∀ b ∈ bookingsAtSameTime bookings p.bookingDate p.period,
      b.classroom = p.classroom →
        checkSubmit bookings p = .classroomConflict) := by
  refine ⟨fun hnc => ⟨fun hov => ?_, fun hne => ?_⟩, fun b hb hcls => ?_⟩
  · obtain ⟨b, hb, e, he, r, hr, heq⟩ := hov
    exact checkSubmit_eq_equipmentConflict hnc hr hb he heq
  · exact checkSubmit_eq_create hnc
      (fun r hr b hb e he => hne b hb e he r hr)
  · exact checkSubmit_eq_classroomConflict hb hcls

/-- Claim C2, witness: a cache with one active booking holding a TV on the
same date and period, and a proposal in another classroom requesting the
TV, is rejected with `EquipmentConflict`. -/
theorem C2_witness :
    checkSubmit [baseBooking] { baseProposal with equipment := ["tv"] } =
      .equipmentConflict :=
  ((C2_equipment_conflict [baseBooking]
      { baseProposal with equipment := ["tv"] }).1 (by decide)).1 (by decide)

/-! ## Claim C3: equipment sanitization -/

/-- A raw booking whose equipment arrives as an array containing an empty
string. -/
def c3ArrRaw : RawBooking :=
  { id := 1, teacherName := "Teacher A", program := "Thai Programme",
    classroom := "P.1A TP", period := 3, bookingDate := "2024-07-22",
    learningUnitNumber := "1", learningUnitName := "Unit 1",
    lessonPlanName := "Plan 1", equipment := .arr ["", "tv"], type := .book,
    status := .booked, createdAt := "2024-07-20T08:00:00.000Z" }

/-- A raw booking whose equipment arrives as a comma-joined string. -/
def c3StrRaw : RawBooking :=
  { id := 1, teacherName := "Teacher A", program := "Thai Programme",
    classroom := "P.1A TP", period := 3, bookingDate := "2024-07-22",
    learningUnitNumber := "1", learningUnitName := "Unit 1",
    lessonPlanName := "Plan 1", equipment := .str "tv, remote ,,",
    type := .book, status := .booked,
    createdAt := "2024-07-20T08:00:00.000Z" }

/-- Claim C3, counterexample: a raw booking whose equipment arrives as the
array `["", "tv"]` passes through `sanitizeBooking` unchanged, so the
normalized equipment list contains an empty string, contradicting the
claim that after normalization the equipment field is a list of non-empty
strings regardless of the source shape. -/
theorem C3_counterexample :
    (sanitizeBooking c3ArrRaw).equipment = ["", "tv"] ∧
    ¬ (∀ e ∈ (sanitizeBooking c3ArrRaw).equipment, 0 < e.length) := by
  decide

/-- Claim C3 (amended): after normalization the equipment field is an
ordered list of strings: an array passes through unchanged (its elements
are not re-validated, so the non-emptiness guarantee holds only when the
source array's elements are non-empty), a comma-joined string is split,
trimmed and filtered of empties — yielding only non-empty strings — and
any other shape yields the empty list. -/
theorem C3_sanitize_amended (b : RawBooking) :
    (∀ l, b.equipment = .arr l → (sanitizeBooking b).equipment = l) ∧
    (∀ s, b.equipment = .str s →
      (sanitizeBooking b).equipment =
        ((jsSplit s ',').map jsTrim).filter (fun e => 0 < e.length) ∧
      ∀ e ∈ (sanitizeBooking b).equipment, 0 < e.length) ∧
    (b.equipment = .malformed → (sanitizeBooking b).equipment = []) := by
  refine ⟨fun l hl => ?_, fun s hs => ⟨?_, fun e he => ?_⟩, fun hm => ?_⟩
  · simp [sanitizeBooking, sanitizeEquipment, hl]
  · simp [sanitizeBooking, sanitizeEquipment, hs]
  · rw [sanitizeBooking] at he
    simp only [sanitizeEquipment, hs] at he
    have := (List.mem_filter.mp he).2
    exact of_decide_eq_true this
  · simp [sanitizeBooking, sanitizeEquipment, hm]

/-- Claim C3, witness: the amended theorem applied to a raw booking whose
equipment arrives as the comma-joined string `"tv, remote ,,"`. -/
theorem C3_witness :
    (sanitizeBooking c3StrRaw).equipment =
      ((jsSplit "tv, remote ,," ',').map jsTrim).filter
        (fun e => 0 < e.length) ∧
    ∀ e ∈ (sanitizeBooking c3StrRaw).equipment, 0 < e.length :=
  (C3_sanitize_amended c3StrRaw).2.1 "tv, remote ,," rfl

/-! ## Claims C4, C5, C7, C9: the optimistic store -/

/-- Claim C4, counterexample: if the cache already holds a record whose id
equals the clock value used as the placeholder id, the failure-path filter
removes that record as well, so the cache after rollback is not the
pre-call state. -/
theorem C4_counterexample :
    (createBookingRun [{ baseBooking with id := 5 }] baseProposal 5
        "2024-07-21T10:00:00.000Z" (.error { message := "fail" })).final = [] ∧
    [{ baseBooking with id := 5 }] ≠ ([] : List Booking) := by
  decide

/-- Claim C4 (amended): provided the placeholder id does not occur among
the ids already in the cache, create followed by a gateway failure leaves
the cache in exactly its pre-call state — the placeholder is removed, no
other record is added, removed or changed — and the error is re-raised to
the caller. -/
theorem C4_create_rollback_amended (cache : List Booking) (d : BookingData)
    (now : Nat) (ca : String) (e : GatewayError)
    (hfresh : ∀ b ∈ cache, b.id ≠ now) :
    (createBookingRun cache d now ca (.error e)).final = cache ∧
    (createBookingRun cache d now ca (.error e)).raised = some e := by
  constructor
  · show (optimisticBooking d now ca :: cache).filter
      (fun b => !(b.id == now)) = cache
    rw [List.filter_cons_of_neg (by simp [optimisticBooking])]
    exact List.filter_eq_self.mpr (fun b hb => by simp [hfresh b hb])
  · rfl

/-- Claim C4, witness: the amended theorem applied at a concrete cache
whose single record's id differs from the placeholder id. -/
theorem C4_witness :
    (createBookingRun [baseBooking] baseProposal 99
        "2024-07-21T10:00:00.000Z" (.error { message := "fail" })).final =
      [baseBooking] ∧
    (createBookingRun [baseBooking] baseProposal 99
        "2024-07-21T10:00:00.000Z" (.error { message := "fail" })).raised =
      some { message := "fail" } :=
  C4_create_rollback_amended [baseBooking] baseProposal 99
    "2024-07-21T10:00:00.000Z" { message := "fail" } (by decide)

/-- Claim C5: for every cache, target id and new status, a gateway failure
during `setStatus` (`updateBookingStatus`) or `delete` (`deleteBooking`)
restores the cache to exactly the pre-call snapshot and re-raises the
error, after the optimistic mutation (in-place status rewrite, resp.
record removal) had been applied to the pending cache. -/
theorem C5_rollback_restores_snapshot (cache : List Booking) (id : Nat)
    (st : BookingStatus) (e : GatewayError)
    (refreshed : Option (List Booking)) :
    (updateBookingStatusRun cache id st (.error e) refreshed).final = cache ∧
    (updateBookingStatusRun cache id st (.error e) refreshed).raised = some e ∧
    (updateBookingStatusRun cache id st (.error e) refreshed).pending =
      cache.map (fun b => if b.id == id then { b with status := st } else b) ∧
    (deleteBookingRun cache id (.error e) refreshed).final = cache ∧
    (deleteBookingRun cache id (.error e) refreshed).raised = some e ∧
    (deleteBookingRun cache id (.error e) refreshed).pending =
      cache.filter (fun b => !(b.id == id)) :=
  ⟨rfl, rfl, rfl, rfl, rfl, rfl⟩

/-- Claim C6: a booking whose status is Cancelled or Returned never
participates in conflict detection (it is never among the bookings at the
same time) or in schedule-grid occupancy (it is never a value of the
schedule map); both filter on exactly the active statuses
{Booked, In Use, Awaiting Return}. -/
theorem C6_inactive_never_participates (bookings : List Booking)
    (b : Booking) (hst : b.status = .cancelled ∨ b.status = .returned) :
    (∀ date period, b ∉ bookingsAtSameTime bookings date period) ∧
    (∀ d k, (k, b) ∉ bookingsForDateMap bookings d) ∧
    (∀ b' : Booking, isActive b' = true ↔
      b'.status = .booked ∨ b'.status = .inUse ∨
        b'.status = .awaitingReturn) := by
  have hact : isActive b = false := by
    rcases hst with h | h <;> simp [isActive, activeStatuses, h]
  refine ⟨fun date period hmem => ?_, fun d k hmem => ?_, fun b' => ?_⟩
  · have := (mem_bookingsAtSameTime.mp hmem).2.2.2
    rw [hact] at this
    exact Bool.false_ne_true this
  · have := (mem_bookingsForDateMap hmem).2.1
    rw [hact] at this
    exact Bool.false_ne_true this
  · cases h : b'.status <;> simp [isActive, activeStatuses, h]

/-- Claim C6, witness: the theorem applied to a concrete cancelled
booking. -/
theorem C6_witness :
    (∀ date period, ({ baseBooking with status := .cancelled } : Booking) ∉
      bookingsAtSameTime [{ baseBooking with status := .cancelled }]
        date period) ∧
    (∀ d k, (k, ({ baseBooking with status := .cancelled } : Booking)) ∉
      bookingsForDateMap [{ baseBooking with status := .cancelled }] d) ∧
    (∀ b' : Booking, isActive b' = true ↔
      b'.status = .booked ∨ b'.status = .inUse ∨
        b'.status = .awaitingReturn) :=
  C6_inactive_never_participates
    [{ baseBooking with status := .cancelled }]
    { baseBooking with status := .cancelled } (Or.inl rfl)

/-- Claim C7, counterexample: if the cache already holds a record whose id
equals the placeholder id, the success-path replacement overwrites that
record too, so the final cache is not the sanitized server response
prepended to the untouched pre-call cache. -/
theorem C7_counterexample :
    (createBookingRun [{ baseBooking with id := 5 }] baseProposal 5
        "2024-07-21T10:00:00.000Z" (.ok rawServer)).final ≠
      sanitizeBooking rawServer :: [{ baseBooking with id := 5 }] := by
  decide

/-- Claim C7 (amended): the initial status is derived from the booking kind
(borrow → In Use, book → Booked), the optimistic record is inserted at the
head of the cache during the pending window, and — provided the placeholder
id does not occur among the ids already in the cache — on success the
placeholder is replaced in place by the server's sanitized response,
leaving every other record unchanged in order and content. -/
theorem C7_create_flow_amended (cache : List Booking) (d : BookingData)
    (now : Nat) (ca : String) (fin : RawBooking)
    (hfresh : ∀ b ∈ cache, b.id ≠ now) :
    initialStatus .borrow = .inUse ∧ initialStatus .book = .booked ∧
    (optimisticBooking d now ca).status = initialStatus d.type ∧
    (optimisticBooking d now ca).id = now ∧
    (createBookingRun cache d now ca (.ok fin)).pending =
      optimisticBooking d now ca :: cache ∧
    (createBookingRun cache d now ca (.ok fin)).final =
      sanitizeBooking fin :: cache := by
  refine ⟨rfl, rfl, rfl, rfl, rfl, ?_⟩
  show (optimisticBooking d now ca :: cache).map
    (fun b => if b.id == now then sanitizeBooking fin else b) =
      sanitizeBooking fin :: cache
  rw [List.map_cons, if_pos (by simp [optimisticBooking])]
  have : cache.map (fun b => if b.id == now then sanitizeBooking fin else b) =
      cache.map id :=
    List.map_congr_left (fun b hb => by simp [hfresh b hb])
  rw [this, List.map_id]

/-- Claim C7, witness: the amended theorem applied at a concrete cache
whose single record's id differs from the placeholder id. -/
theorem C7_witness :
    initialStatus .borrow = .inUse ∧ initialStatus .book = .booked ∧
    (optimisticBooking baseProposal 99 "2024-07-21T10:00:00.000Z").status =
      initialStatus baseProposal.type ∧
    (optimisticBooking baseProposal 99 "2024-07-21T10:00:00.000Z").id = 99 ∧
    (createBookingRun [baseBooking] baseProposal 99
        "2024-07-21T10:00:00.000Z" (.ok rawServer)).pending =
      optimisticBooking baseProposal 99 "2024-07-21T10:00:00.000Z" ::
        [baseBooking] ∧
    (createBookingRun [baseBooking] baseProposal 99
        "2024-07-21T10:00:00.000Z" (.ok rawServer)).final =
      sanitizeBooking rawServer :: [baseBooking] :=
  C7_create_flow_amended [baseBooking] baseProposal 99
    "2024-07-21T10:00:00.000Z" rawServer (by decide)

/-- Claim C8: every entry of the schedule map for a target date is an
active booking from the cache whose stored date, normalized to the
Asia/Bangkok calendar day, equals the target date, keyed by its
classroom-period grid key; and each key holds at most one booking. -/
theorem C8_schedule_projection (bookings : List Booking) (d k : String)
    (b : Booking) (h : (k, b) ∈ bookingsForDateMap bookings d) :
    b ∈ bookings ∧ isActive b = true ∧
    bangkokOf b.bookingDate = some d ∧ k = gridKey b ∧
    ∀ b', (k, b') ∈ bookingsForDateMap bookings d → b' = b := by
  obtain ⟨h1, h2, h3, h4⟩ := mem_bookingsForDateMap h
  exact ⟨h1, h2, h3, h4, fun b' h' => bookingsForDateMap_unique h' h⟩

/-- Claim C8, witness: the theorem applied to a cache holding one booking
stored as the UTC timestamp `2024-07-22T17:00:00.000Z`, which the map files
under the Bangkok day `2024-07-23`. -/
theorem C8_witness :
    tzBooking ∈ [tzBooking] ∧ isActive tzBooking = true ∧
    bangkokOf tzBooking.bookingDate = some "2024-07-23" ∧
    "P.1A TP-3" = gridKey tzBooking ∧
    ∀ b', ("P.1A TP-3", b') ∈ bookingsForDateMap [tzBooking] "2024-07-23" →
      b' = tzBooking :=
  C8_schedule_projection [tzBooking] "2024-07-23" "P.1A TP-3" tzBooking
    (by decide)

/-- Claim C9: the code computes the placeholder id as the raw clock value
`Date.now()` with no collision avoidance. At the failing input — a cache
already holding a record with id equal to the clock value — the pending
cache has duplicate ids, the failure-path rollback removes both records,
and a second creation in the same millisecond receives the same placeholder
id, contradicting the claimed pairwise distinctness. -/
theorem C9_code_eval :
    (createBookingRun [{ baseBooking with id := 5 }] baseProposal 5
        "2024-07-21T10:00:00.000Z"
        (.error { message := "fail" })).pending.map Booking.id = [5, 5] ∧
    ¬ ((createBookingRun [{ baseBooking with id := 5 }] baseProposal 5
        "2024-07-21T10:00:00.000Z"
        (.error { message := "fail" })).pending.map Booking.id).Nodup ∧
    (createBookingRun [{ baseBooking with id := 5 }] baseProposal 5
        "2024-07-21T10:00:00.000Z"
        (.error { message := "fail" })).final = [] ∧
    (optimisticBooking baseProposal 5 "2024-07-21T10:00:00.000Z").id =
      (optimisticBooking { baseProposal with teacherName := "Teacher C" } 5
        "2024-07-21T10:05:00.000Z").id := by
  decide

/-- Claim C10: the conflict check and the schedule projection use different
date conventions. For a booking stored as `2024-07-22T17:00:00.000Z`, the
conflict check takes the first ten characters and files it on
`2024-07-22`, while the schedule projection files it on the Asia/Bangkok
day `2024-07-23`: the booking matches the conflict filter for `2024-07-22`
and appears in the schedule map for `2024-07-23` but not for
`2024-07-22`. -/
theorem C10_divergent_date_conventions :
    conflictDatePart tzBooking = "2024-07-22" ∧
    bangkokOf tzBooking.bookingDate = some "2024-07-23" ∧
    tzBooking ∈ bookingsAtSameTime [tzBooking] "2024-07-22" 3 ∧
    ("P.1A TP-3", tzBooking) ∈ bookingsForDateMap [tzBooking] "2024-07-23" ∧
    bookingsForDateMap [tzBooking] "2024-07-22" = [] ∧
    ("2024-07-22" : String) ≠ "2024-07-23" := by
  decide

end BookingPortal
